import Mathlib

/-!
Verification of the salary-statistics reporting script (src/main.py) against
its natural-language specification.

The Python program is shallowly embedded:
* Python numeric values that may also be null are modelled by `PyVal`
  (either the null value `PyVal.none` or an exact rational `PyVal.num q`;
  the floating point arithmetic of the source is modelled exactly over ℚ).
* Python truthiness (`if x:`) is modelled by `truthy`: null and the number
  zero are falsy, every other number is truthy.
* Operations that can raise (null arithmetic, division by zero, HTTP status
  errors) return `Except PyErr _`.
* The unbounded `for page in count(0)` loops are modelled with explicit
  fuel; fuel exhaustion is `Option.none`, so a returned `Option.some`
  describes a genuinely terminating run of the source loop.
* HTTP servers are modelled as pure functions from a page index to the
  response delivered for the request of that page; each fetch function also
  returns the list of page indices it actually requested, in order.
-/

/-- A Python value as used by the salary computations: null or a number. -/
inductive PyVal : Type
  | none : PyVal
  | num : ℚ → PyVal
deriving DecidableEq, Repr

/-- The error kinds the embedded program can raise. -/
inductive PyErr : Type
  | typeError : PyErr
  | zeroDivisionError : PyErr
  | httpError : ℕ → PyErr
deriving DecidableEq, Repr

deriving instance DecidableEq for Except

/-- Python truthiness of a `PyVal`: `None` and `0` are falsy. -/
def truthy : PyVal → Bool
  | PyVal.none => false
  | PyVal.num q => if q = 0 then false else true

/-- Python multiplication `v * c` of a value by a numeric literal:
raises `TypeError` when `v` is null. -/
def pyMul (v : PyVal) (c : ℚ) : Except PyErr PyVal :=
  match v with
  | PyVal.none => Except.error PyErr.typeError
  | PyVal.num q => Except.ok (PyVal.num (q * c))

/-- Python addition `a + b` of two values: raises `TypeError` when either
operand is null. -/
def pyAdd (a b : PyVal) : Except PyErr PyVal :=
  match a, b with
  | PyVal.num x, PyVal.num y => Except.ok (PyVal.num (x + y))
  | _, _ => Except.error PyErr.typeError

/-- Python division `v / c` of a value by a numeric literal. -/
def pyDivBy (v : PyVal) (c : ℚ) : Except PyErr PyVal :=
  if c = 0 then Except.error PyErr.zeroDivisionError
  else
    match v with
    | PyVal.none => Except.error PyErr.typeError
    | PyVal.num q => Except.ok (PyVal.num (q / c))

/-- Embedding of `predict_salary(salary_from, salary_to)` (src/main.py,
lines 10-27).  The source tests truthiness, so a zero bound takes the same
branches as a null one, and the branch bodies perform Python arithmetic on
the raw values, which raises `TypeError` on null operands.  When no branch
fires, Python falls off the end of the function and returns `None`. -/
def predict_salary (salary_from salary_to : PyVal) : Except PyErr PyVal :=
  if truthy salary_from && truthy salary_to then
    match pyAdd salary_to salary_from with
    | Except.error e => Except.error e
    | Except.ok s => pyDivBy s 2
  else if truthy salary_to = false then
    pyMul salary_from (1.2 : ℚ)
  else if truthy salary_from = false then
    pyMul salary_to (0.8 : ℚ)
  else
    Except.ok PyVal.none

/-- Claim C1: `predict_salary` returns the mean when both bounds are
present (100, 200 ↦ 150), lower × 1.2 when only the lower is present
(100, absent ↦ 120), upper × 0.8 when only the upper is present
(absent, 200 ↦ 160).  The fourth point of the claim fails: on
(absent, absent) the source does not return the absence marker; the
`elif not salary_to` branch evaluates `None * 1.2` and raises a
`TypeError`, contradicting the docstring of the function. -/
theorem predict_salary_four_point_evaluation :
    predict_salary (PyVal.num 100) (PyVal.num 200) = Except.ok (PyVal.num 150) ∧
    predict_salary (PyVal.num 100) PyVal.none = Except.ok (PyVal.num 120) ∧
    predict_salary PyVal.none (PyVal.num 200) = Except.ok (PyVal.num 160) ∧
    predict_salary PyVal.none PyVal.none = Except.error PyErr.typeError := by
  refine ⟨?_, ?_, ?_, ?_⟩ <;>
    norm_num [predict_salary, truthy, pyAdd, pyMul, pyDivBy]

/-- Claim C8: on non-negative numeric bounds lo ≤ hi with at least one
bound present (presence is truthiness in the source, so a present bound is
a non-zero number), the estimate lies within [0.8 lo, 1.2 hi]. -/
theorem predict_salary_within_bounds (lo hi : ℚ) (h0 : 0 ≤ lo) (hle : lo ≤ hi)
    (hp : ¬(lo = 0 ∧ hi = 0)) :
    ∃ r : ℚ, predict_salary (PyVal.num lo) (PyVal.num hi) = Except.ok (PyVal.num r) ∧
      (0.8 : ℚ) * lo ≤ r ∧ r ≤ (1.2 : ℚ) * hi := by
  have hhi : hi ≠ 0 := by
    intro h
    exact hp ⟨le_antisymm (h ▸ hle) h0, h⟩
  by_cases hlo : lo = 0
  · refine ⟨hi * (0.8 : ℚ), ?_, ?_, ?_⟩
    · simp [predict_salary, truthy, hlo, hhi, pyMul]
    · rw [hlo]
      norm_num
      linarith
    · norm_num
      linarith
  · refine ⟨(hi + lo) / 2, ?_, ?_, ?_⟩
    · simp [predict_salary, truthy, hlo, hhi, pyAdd, pyDivBy]
    · norm_num
      linarith
    · norm_num
      linarith

/-- Witness for claim C8: the bounds (100, 200) produce an estimate inside
[80, 240]. -/
theorem predict_salary_within_bounds_witness :
    ∃ r : ℚ, predict_salary (PyVal.num 100) (PyVal.num 200) = Except.ok (PyVal.num r) ∧
      (0.8 : ℚ) * 100 ≤ r ∧ r ≤ (1.2 : ℚ) * 200 :=
  predict_salary_within_bounds 100 200 (by norm_num) (by norm_num) (by norm_num)

/-- Claim C9: a zero lower bound together with a positive upper bound u is
classified by truthiness as absent: the result is u × 0.8, exactly as for
a null lower bound, and differs from the arithmetic mean (0 + u) / 2. -/
theorem predict_salary_zero_lower_treated_absent (u : ℚ) (hu : 0 < u) :
    predict_salary (PyVal.num 0) (PyVal.num u) =
      Except.ok (PyVal.num (u * (0.8 : ℚ))) ∧
    predict_salary (PyVal.num 0) (PyVal.num u) =
      predict_salary PyVal.none (PyVal.num u) ∧
    u * (0.8 : ℚ) ≠ (0 + u) / 2 := by
  have hu0 : u ≠ 0 := ne_of_gt hu
  refine ⟨?_, ?_, ?_⟩
  · simp [predict_salary, truthy, hu0, pyMul]
  · simp [predict_salary, truthy, hu0, pyMul]
  · intro h
    rw [zero_add] at h
    norm_num at h
    linarith

/-- Witness for claim C9: at the bound pair (0, 200) the estimate is 160,
matching the estimate for an entirely missing lower bound. -/
theorem predict_salary_zero_lower_treated_absent_witness :
    predict_salary (PyVal.num 0) (PyVal.num 200) =
      Except.ok (PyVal.num (200 * (0.8 : ℚ))) ∧
    predict_salary (PyVal.num 0) (PyVal.num 200) =
      predict_salary PyVal.none (PyVal.num 200) ∧
    (200 : ℚ) * (0.8 : ℚ) ≠ (0 + 200) / 2 :=
  predict_salary_zero_lower_treated_absent 200 (by norm_num)

/-- The salary sub-structure of an HH vacancy record: the JSON fields
`from`, `to` and `currency` of `vacancy["salary"]` (`from`/`to` are
rendered as `salary_from`/`salary_to` because `from` is reserved). -/
structure HHSalary : Type where
  salary_from : PyVal
  salary_to : PyVal
  currency : String
deriving DecidableEq, Repr

/-- An HH vacancy record: `vacancy["salary"]` is either null or a salary
sub-structure (a present, hence non-empty and truthy, dictionary). -/
structure HHVacancy : Type where
  salary : Option HHSalary
deriving DecidableEq, Repr

/-- Embedding of `predict_rub_salary_for_hh(vacancy)` (src/main.py, lines
30-42): when `vacancy["salary"]` is truthy and its currency is `"RUR"`,
delegate to `predict_salary`; otherwise fall off the end, returning null. -/
def predict_rub_salary_for_hh (vacancy : HHVacancy) : Except PyErr PyVal :=
  match vacancy.salary with
  | Option.some s =>
      if s.currency = "RUR" then predict_salary s.salary_from s.salary_to
      else Except.ok PyVal.none
  | Option.none => Except.ok PyVal.none

/-- An SJ vacancy record: the fields of the record that the program reads. -/
structure SJVacancy : Type where
  currency : String
  payment_from : PyVal
  payment_to : PyVal
deriving DecidableEq, Repr

/-- Embedding of `predict_rub_salary_for_sj(vacancy)` (src/main.py, lines
45-57): when the currency field is `"rub"`, delegate to `predict_salary`
on the payment fields; otherwise fall off the end, returning null. -/
def predict_rub_salary_for_sj (vacancy : SJVacancy) : Except PyErr PyVal :=
  if vacancy.currency = "rub" then
    predict_salary vacancy.payment_from vacancy.payment_to
  else Except.ok PyVal.none

/-- Claim C6: the HH adapter yields the absence marker when the salary
sub-structure is absent or its currency differs from "RUR", and otherwise
yields exactly `predict_salary` applied to the lower and upper bounds of
the record. -/
theorem hh_adapter_currency_filter (vacancy : HHVacancy) :
    (vacancy.salary = Option.none →
      predict_rub_salary_for_hh vacancy = Except.ok PyVal.none) ∧
    (∀ s : HHSalary, vacancy.salary = Option.some s → s.currency ≠ "RUR" →
      predict_rub_salary_for_hh vacancy = Except.ok PyVal.none) ∧
    (∀ s : HHSalary, vacancy.salary = Option.some s → s.currency = "RUR" →
      predict_rub_salary_for_hh vacancy = predict_salary s.salary_from s.salary_to) := by
  refine ⟨fun h => ?_, fun s h hc => ?_, fun s h hc => ?_⟩
  · simp [predict_rub_salary_for_hh, h]
  · simp [predict_rub_salary_for_hh, h, hc]
  · simp [predict_rub_salary_for_hh, h, hc]

/-- A concrete HH record whose salary currency is "USD". -/
def usdVacancy : HHVacancy :=
  ⟨Option.some ⟨PyVal.num 100, PyVal.num 200, "USD"⟩⟩

/-- Witness for claim C6: the USD record yields the absence marker even
though both bounds are present. -/
theorem hh_adapter_currency_filter_witness :
    predict_rub_salary_for_hh usdVacancy = Except.ok PyVal.none :=
  (hh_adapter_currency_filter usdVacancy).2.1
    ⟨PyVal.num 100, PyVal.num 200, "USD"⟩ rfl (by decide)

/-- Truncation of Python `int(q)` toward zero. -/
def pyTrunc (q : ℚ) : ℤ :=
  if 0 ≤ q then ⌊q⌋ else ⌈q⌉

/-- Python division `a / b` of two numbers: raises `ZeroDivisionError`
when the divisor is zero. -/
def pyDiv (a b : ℚ) : Except PyErr ℚ :=
  if b = 0 then Except.error PyErr.zeroDivisionError else Except.ok (a / b)

/-- Embedding of the estimate-collection loop of `main` (src/main.py,
lines 217-221 and 236-240): apply the adapter to each record in order and
append the estimate exactly when it is truthy.  Collected estimates are
truthy, hence non-zero numbers, and are therefore represented directly as
rationals.  An adapter error aborts the whole collection. -/
def gatherSalaries {V : Type} (adapter : V → Except PyErr PyVal) :
    List V → Except PyErr (List ℚ)
  | [] => Except.ok []
  | v :: vs =>
    match adapter v with
    | Except.error e => Except.error e
    | Except.ok s =>
      match gatherSalaries adapter vs with
      | Except.error e => Except.error e
      | Except.ok rest =>
        match s with
        | PyVal.none => Except.ok rest
        | PyVal.num q => Except.ok (if q = 0 then rest else q :: rest)

/-- The per-language statistics dictionary built by `main` (src/main.py,
lines 222-228 and 241-247). -/
structure LanguageStatistics : Type where
  vacancies_found : ℕ
  vacancies_processed : ℕ
  average_salary : Option ℤ
deriving DecidableEq, Repr

/-- Embedding of the per-language aggregation of `main` (src/main.py,
lines 217-228 and 236-247): collect truthy estimates, then build the
statistics dictionary; the average is
`int(sum(gathered_salaries) / len(gathered_salaries))` when the collected
list is non-empty, and null otherwise (the division is inside the
non-empty branch of the conditional expression). -/
def computeLanguageStats {V : Type} (adapter : V → Except PyErr PyVal)
    (vs : List V) : Except PyErr LanguageStatistics :=
  match gatherSalaries adapter vs with
  | Except.error e => Except.error e
  | Except.ok salaries =>
    if salaries.isEmpty then
      Except.ok ⟨vs.length, salaries.length, Option.none⟩
    else
      match pyDiv salaries.sum (salaries.length : ℚ) with
      | Except.error e => Except.error e
      | Except.ok m => Except.ok ⟨vs.length, salaries.length, Option.some (pyTrunc m)⟩

/-- The records counted as processed are exactly those whose adapter
result is a truthy value. -/
lemma gatherSalaries_length_eq_countP {V : Type}
    (adapter : V → Except PyErr PyVal) :
    ∀ (vs : List V) (salaries : List ℚ),
      gatherSalaries adapter vs = Except.ok salaries →
      salaries.length = vs.countP (fun v =>
        match adapter v with
        | Except.ok s => truthy s
        | Except.error _ => false) := by
  intro vs
  induction vs with
  | nil => intro salaries h; simp [gatherSalaries] at h; simp [← h]
  | cons v vs ih =>
    intro salaries h
    rw [gatherSalaries] at h
    rcases ha : adapter v with e | s <;> rw [ha] at h
    · exact absurd h (by simp)
    · rcases hg : gatherSalaries adapter vs with e | rest <;> rw [hg] at h
      · exact absurd h (by simp)
      · have hrest := ih rest hg
        rcases s with _ | q
        · simp only [Except.ok.injEq] at h
          subst h
          simp [List.countP_cons, ha, truthy, hrest]
        · rcases hq : decide (q = 0) with _ | _
          · have hq0 : ¬ q = 0 := of_decide_eq_false hq
            simp only [if_neg hq0, Except.ok.injEq] at h
            subst h
            simp [List.countP_cons, ha, truthy, hq0, hrest]
          · have hq0 : q = 0 := of_decide_eq_true hq
            simp only [if_pos hq0, Except.ok.injEq] at h
            subst h
            simp [List.countP_cons, ha, truthy, hq0, hrest]

/-- Unfolding of the aggregation when the estimate collection succeeds
with an empty list. -/
lemma computeLanguageStats_of_nil_salaries {V : Type}
    (adapter : V → Except PyErr PyVal) (vs : List V)
    (h : gatherSalaries adapter vs = Except.ok []) :
    computeLanguageStats adapter vs =
      Except.ok ⟨vs.length, 0, Option.none⟩ := by
  rw [computeLanguageStats, h]
  simp

/-- Unfolding of the aggregation when the estimate collection succeeds
with a non-empty list. -/
lemma computeLanguageStats_of_salaries {V : Type}
    (adapter : V → Except PyErr PyVal) (vs : List V) (salaries : List ℚ)
    (h : gatherSalaries adapter vs = Except.ok salaries)
    (hne : salaries ≠ []) :
    computeLanguageStats adapter vs =
      Except.ok ⟨vs.length, salaries.length,
        Option.some (pyTrunc (salaries.sum / (salaries.length : ℚ)))⟩ := by
  rw [computeLanguageStats, h]
  have hlen : (salaries.length : ℚ) ≠ 0 := by
    exact_mod_cast (List.length_pos.mpr hne).ne'
  simp [List.isEmpty_iff, hne, pyDiv, hlen]

/-- Claim C3: when the collected estimate list is empty, the aggregation
succeeds with a null average; the division of the mean computation sits in
the non-empty branch, so no division error can arise. -/
theorem aggregate_empty_estimates_average_none {V : Type}
    (adapter : V → Except PyErr PyVal) (vs : List V)
    (h : gatherSalaries adapter vs = Except.ok []) :
    computeLanguageStats adapter vs =
      Except.ok ⟨vs.length, 0, Option.none⟩ :=
  computeLanguageStats_of_nil_salaries adapter vs h

/-- Witness for claim C3: an adapter that always yields null on a single
record produces found = 1, processed = 0, average = null. -/
theorem aggregate_empty_estimates_average_none_witness :
    computeLanguageStats (fun _ : ℕ => Except.ok PyVal.none) [7] =
      Except.ok ⟨1, 0, Option.none⟩ :=
  aggregate_empty_estimates_average_none
    (fun _ : ℕ => Except.ok PyVal.none) [7] rfl

/-- The identity-style adapter used by the aggregation witnesses: each
record is a rational taken verbatim as the estimate. -/
def numAdapter : ℚ → Except PyErr PyVal :=
  fun q => Except.ok (PyVal.num q)

/-- Claim C4: when at least one estimate was collected, the recorded
average is the arithmetic mean of the collected estimates truncated to an
integer afterwards. -/
theorem aggregate_average_is_mean_then_truncate {V : Type}
    (adapter : V → Except PyErr PyVal) (vs : List V) (salaries : List ℚ)
    (h : gatherSalaries adapter vs = Except.ok salaries)
    (hne : salaries ≠ []) :
    computeLanguageStats adapter vs =
      Except.ok ⟨vs.length, salaries.length,
        Option.some (pyTrunc (salaries.sum / (salaries.length : ℚ)))⟩ :=
  computeLanguageStats_of_salaries adapter vs salaries h hne

/-- Witness for claim C4: the estimate list [100, 101] yields the average
100 (mean 100.5, then truncation), not 101 by rounding. -/
theorem aggregate_average_is_mean_then_truncate_witness :
    computeLanguageStats numAdapter [100, 101] =
      Except.ok ⟨2, 2, Option.some 100⟩ := by
  have h := aggregate_average_is_mean_then_truncate numAdapter [100, 101]
    [100, 101] (by norm_num [gatherSalaries, numAdapter]) (by simp)
  have h2 : pyTrunc (([100, 101] : List ℚ).sum /
      ((([100, 101] : List ℚ).length) : ℚ)) = 100 := by
    have h1 : (([100, 101] : List ℚ).sum / ((([100, 101] : List ℚ).length) : ℚ))
        = 201 / 2 := by norm_num
    rw [h1, pyTrunc, if_pos (by norm_num), Int.floor_eq_iff]
    norm_num
  rw [h, h2]
  rfl

/-- Claim C5: the aggregation records `vacancies_found` as the number of
fetched records and `vacancies_processed` as the number of records whose
adapter result is a non-absent estimate, where absence follows the falsy
convention of the source (null or zero). -/
theorem aggregate_found_and_processed_counts {V : Type}
    (adapter : V → Except PyErr PyVal) (vs : List V) (salaries : List ℚ)
    (h : gatherSalaries adapter vs = Except.ok salaries) :
    ∃ st : LanguageStatistics,
      computeLanguageStats adapter vs = Except.ok st ∧
      st.vacancies_found = vs.length ∧
      st.vacancies_processed = vs.countP (fun v =>
        match adapter v with
        | Except.ok s => truthy s
        | Except.error _ => false) := by
  have hcount := gatherSalaries_length_eq_countP adapter vs salaries h
  rcases hs : salaries with _ | ⟨q, rest⟩
  · rw [hs] at h hcount
    exact ⟨⟨vs.length, 0, Option.none⟩,
      computeLanguageStats_of_nil_salaries adapter vs h, rfl, by simpa using hcount⟩
  · rw [hs] at h hcount
    exact ⟨_, computeLanguageStats_of_salaries adapter vs (q :: rest) h (by simp),
      rfl, hcount⟩

/-- Witness for claim C5: of the two records 0 and 5, both are counted as
found and only the truthy estimate 5 is counted as processed. -/
theorem aggregate_found_and_processed_counts_witness :
    ∃ st : LanguageStatistics,
      computeLanguageStats numAdapter [0, 5] = Except.ok st ∧
      st.vacancies_found = [(0 : ℚ), 5].length ∧
      st.vacancies_processed = [(0 : ℚ), 5].countP (fun v =>
        match numAdapter v with
        | Except.ok s => truthy s
        | Except.error _ => false) :=
  aggregate_found_and_processed_counts numAdapter [0, 5] [5]
    (by norm_num [gatherSalaries, numAdapter])

/-- Claim C7: the SJ adapter yields the absence marker when the currency
field differs from "rub", and otherwise yields exactly `predict_salary`
applied to the payment fields of the record. -/
theorem sj_adapter_currency_filter (vacancy : SJVacancy) :
    (vacancy.currency ≠ "rub" →
      predict_rub_salary_for_sj vacancy = Except.ok PyVal.none) ∧
    (vacancy.currency = "rub" →
      predict_rub_salary_for_sj vacancy =
        predict_salary vacancy.payment_from vacancy.payment_to) := by
  refine ⟨fun h => ?_, fun h => ?_⟩ <;> simp [predict_rub_salary_for_sj, h]

/-- Witness for claim C7: a "rub" record with payment bounds 1000 and 2000
yields the estimate 1500. -/
theorem sj_adapter_currency_filter_witness :
    predict_rub_salary_for_sj ⟨"rub", PyVal.num 1000, PyVal.num 2000⟩ =
      Except.ok (PyVal.num 1500) := by
  have h := (sj_adapter_currency_filter
    ⟨"rub", PyVal.num 1000, PyVal.num 2000⟩).2 rfl
  rw [h]
  norm_num [predict_salary, truthy, pyAdd, pyMul, pyDivBy]

/-- Modelled from the spec: the success test behind
`response.raise_for_status()` of the HTTP client library, which is not
part of this repository.  Per spec section 7, any non-2xx response raises
an HTTP status error, so a call succeeds exactly on a 2xx status. -/
def is2xx (status : ℕ) : Bool :=
  decide (200 ≤ status) && decide (status < 300)

/-- One HTTP response of the HH vacancies endpoint: its status code and
the JSON fields `items` and `pages` that the program reads. -/
structure HHResponse : Type where
  status : ℕ
  items : List HHVacancy
  pages : ℕ
deriving DecidableEq, Repr

/-- One HTTP response of the SJ vacancies endpoint: its status code and
the JSON fields `objects` and `total` that the program reads. -/
structure SJResponse : Type where
  status : ℕ
  objects : List SJVacancy
  total : ℕ
deriving DecidableEq, Repr

/-- The response of the SJ authorization endpoint: its status code and the
JSON field `access_token`. -/
structure SJAuthResponse : Type where
  status : ℕ
  access_token : String
deriving DecidableEq, Repr

/-- Embedding of the `for page in count(0)` loop of
`get_vacancies_from_hh` (src/main.py, lines 73-89).  The server argument
gives the response delivered for the request of each page index; the
request/response happens before the status check, and the loop breaks when
`page >= page_data["pages"] - 1`, an integer comparison (the right-hand
side may be -1).  The accumulated vacancies and the list of requested page
indices are threaded through; `Option.none` is fuel exhaustion. -/
def hhLoop (server : ℕ → HHResponse) : ℕ → ℕ → List HHVacancy → List ℕ →
    Option (Except PyErr (List HHVacancy × List ℕ))
  | 0, _, _, _ => Option.none
  | fuel + 1, page, acc, req =>
    let resp := server page
    if is2xx resp.status = false then
      Option.some (Except.error (PyErr.httpError resp.status))
    else
      if (page : ℤ) ≥ (resp.pages : ℤ) - 1 then
        Option.some (Except.ok (acc ++ resp.items, req ++ [page]))
      else
        hhLoop server fuel (page + 1) (acc ++ resp.items) (req ++ [page])

/-- Embedding of `get_vacancies_from_hh(language)` (src/main.py, lines
60-90): run the page loop from page 0 with empty accumulators.  The query
parameters (specialization, area, period, search text) are fixed per
language and are absorbed into the server function. -/
def get_vacancies_from_hh (server : ℕ → HHResponse) (fuel : ℕ) :
    Option (Except PyErr (List HHVacancy × List ℕ)) :=
  hhLoop server fuel 0 [] []

/-- Embedding of the `for page in count(0)` loop of `get_sj_vacancies`
(src/main.py, lines 133-157).  The break bound is
`math.ceil(page_data["total"] / 100) - 1` where 100 is the fixed page
size, and the loop breaks when `page >= last_page` over the integers. -/
def sjLoop (server : ℕ → SJResponse) : ℕ → ℕ → List SJVacancy → List ℕ →
    Option (Except PyErr (List SJVacancy × List ℕ))
  | 0, _, _, _ => Option.none
  | fuel + 1, page, acc, req =>
    let resp := server page
    if is2xx resp.status = false then
      Option.some (Except.error (PyErr.httpError resp.status))
    else
      if (page : ℤ) ≥ ⌈(resp.total : ℚ) / 100⌉ - 1 then
        Option.some (Except.ok (acc ++ resp.objects, req ++ [page]))
      else
        sjLoop server fuel (page + 1) (acc ++ resp.objects) (req ++ [page])

/-- Embedding of `get_sj_vacancies(language, sj_key, token)` (src/main.py,
lines 118-158): run the page loop from page 0 with empty accumulators.
The headers and query parameters are fixed per language and are absorbed
into the server function. -/
def get_sj_vacancies (server : ℕ → SJResponse) (fuel : ℕ) :
    Option (Except PyErr (List SJVacancy × List ℕ)) :=
  sjLoop server fuel 0 [] []

/-- Embedding of `sj_authorization(...)` (src/main.py, lines 93-115): one
GET of the credential-exchange endpoint whose response is the argument;
`raise_for_status` makes a non-2xx status fatal, otherwise the response
body (its access token) is returned. -/
def sj_authorization (resp : SJAuthResponse) : Except PyErr String :=
  if is2xx resp.status then Except.ok resp.access_token
  else Except.error (PyErr.httpError resp.status)

/-- The fixed language list of `main` (src/main.py, lines 194-209). -/
def programming_languages : List String :=
  ["TypeScript", "Swift", "Scala", "Objective-C", "Shell", "Go", "C",
   "C#", "C++", "PHP", "Ruby", "Python", "Java", "JavaScript"]

/-- The SJ half of the per-language loop of `main` (src/main.py, lines
210-228): fetch each language in order and aggregate its statistics; any
raised error aborts the remaining languages. -/
def fetchAllSJ (server : String → ℕ → SJResponse) (fuel : ℕ) :
    List String → Option (Except PyErr (List (String × LanguageStatistics)))
  | [] => Option.some (Except.ok [])
  | l :: ls =>
    match get_sj_vacancies (server l) fuel with
    | Option.none => Option.none
    | Option.some (Except.error e) => Option.some (Except.error e)
    | Option.some (Except.ok (vs, _)) =>
      match computeLanguageStats predict_rub_salary_for_sj vs with
      | Except.error e => Option.some (Except.error e)
      | Except.ok st =>
        match fetchAllSJ server fuel ls with
        | Option.none => Option.none
        | Option.some (Except.error e) => Option.some (Except.error e)
        | Option.some (Except.ok rest) => Option.some (Except.ok ((l, st) :: rest))

/-- The HH half of the per-language loop of `main` (src/main.py, lines
233-247), analogous to the SJ half. -/
def fetchAllHH (server : String → ℕ → HHResponse) (fuel : ℕ) :
    List String → Option (Except PyErr (List (String × LanguageStatistics)))
  | [] => Option.some (Except.ok [])
  | l :: ls =>
    match get_vacancies_from_hh (server l) fuel with
    | Option.none => Option.none
    | Option.some (Except.error e) => Option.some (Except.error e)
    | Option.some (Except.ok (vs, _)) =>
      match computeLanguageStats predict_rub_salary_for_hh vs with
      | Except.error e => Option.some (Except.error e)
      | Except.ok st =>
        match fetchAllHH server fuel ls with
        | Option.none => Option.none
        | Option.some (Except.error e) => Option.some (Except.error e)
        | Option.some (Except.ok rest) => Option.some (Except.ok ((l, st) :: rest))

/-- Embedding of `main()` (src/main.py, lines 181-253): authorize against
SJ, then process every language for SJ, then for HH; rendering of the two
tables is pure formatting of the returned statistics and raises nothing,
so the run outcome is fully described by this value.  No call site
catches any error. -/
def mainRun (authResp : SJAuthResponse) (sjServer : String → ℕ → SJResponse)
    (hhServer : String → ℕ → HHResponse) (fuel : ℕ) :
    Option (Except PyErr
      (List (String × LanguageStatistics) × List (String × LanguageStatistics))) :=
  match sj_authorization authResp with
  | Except.error e => Option.some (Except.error e)
  | Except.ok _token =>
    match fetchAllSJ sjServer fuel programming_languages with
    | Option.none => Option.none
    | Option.some (Except.error e) => Option.some (Except.error e)
    | Option.some (Except.ok sjStats) =>
      match fetchAllHH hhServer fuel programming_languages with
      | Option.none => Option.none
      | Option.some (Except.error e) => Option.some (Except.error e)
      | Option.some (Except.ok hhStats) =>
        Option.some (Except.ok (sjStats, hhStats))

/-- The integer ceiling used by the SJ stop condition, computed in ℕ. -/
lemma ceil_total_div_hundred (T : ℕ) :
    ⌈(T : ℚ) / 100⌉ = (((T + 99) / 100 : ℕ) : ℤ) := by
  have h1 : -((T : ℚ) / 100) = (((-(T : ℤ)) : ℤ) : ℚ) / ((100 : ℕ) : ℚ) := by
    push_cast
    ring
  have h2 : ⌊-((T : ℚ) / 100)⌋ = (-(T : ℤ)) / ((100 : ℕ) : ℤ) := by
    rw [h1, Rat.floor_intCast_div_natCast]
  have h3 : (⌈(T : ℚ) / 100⌉ : ℤ) = -⌊-((T : ℚ) / 100)⌋ := by
    rw [Int.floor_neg]
    ring
  rw [h3, h2, Int.natCast_div]
  push_cast
  omega

/-- Running the HH page loop against responses that are successful and all
declare the same total page count P: starting below P with enough fuel,
the loop visits exactly the pages from the current one up to P - 1. -/
lemma hhLoop_run (server : ℕ → HHResponse) (P : ℕ)
    (hs : ∀ p, p < P → is2xx (server p).status = true ∧ (server p).pages = P) :
    ∀ (fuel page : ℕ) (acc : List HHVacancy) (req : List ℕ),
      page < P → P ≤ page + fuel →
      hhLoop server fuel page acc req =
        Option.some (Except.ok
          (acc ++ (List.range' page (P - page)).flatMap (fun p => (server p).items),
           req ++ List.range' page (P - page))) := by
  intro fuel
  induction fuel with
  | zero =>
    intro page acc req h1 h2
    omega
  | succ fuel ih =>
    intro page acc req h1 h2
    have hst : ¬ (is2xx (server page).status = false) := by
      rw [(hs page h1).1]
      simp
    have hpg := (hs page h1).2
    rw [hhLoop]
    rw [if_neg hst]
    by_cases hend : P ≤ page + 1
    · have hstop : (page : ℤ) ≥ ((server page).pages : ℤ) - 1 := by
        rw [hpg]
        omega
      rw [if_pos hstop]
      have hPp : P - page = 1 := by omega
      rw [hPp, List.range'_one]
      simp
    · have hstop : ¬ ((page : ℤ) ≥ ((server page).pages : ℤ) - 1) := by
        rw [hpg]
        omega
      rw [if_neg hstop]
      rw [ih (page + 1) (acc ++ (server page).items) (req ++ [page])
        (by omega) (by omega)]
      have hPp : P - page = (P - (page + 1)) + 1 := by omega
      rw [hPp, List.range'_succ]
      simp

/-- Running the SJ page loop against responses that are successful and all
declare the same total count T: the declared page count is
ceil(T / 100) = (T + 99) / 100. -/
lemma sjLoop_run (server : ℕ → SJResponse) (T : ℕ)
    (hs : ∀ p, p < (T + 99) / 100 →
      is2xx (server p).status = true ∧ (server p).total = T) :
    ∀ (fuel page : ℕ) (acc : List SJVacancy) (req : List ℕ),
      page < (T + 99) / 100 → (T + 99) / 100 ≤ page + fuel →
      sjLoop server fuel page acc req =
        Option.some (Except.ok
          (acc ++ (List.range' page ((T + 99) / 100 - page)).flatMap
            (fun p => (server p).objects),
           req ++ List.range' page ((T + 99) / 100 - page))) := by
  intro fuel
  induction fuel with
  | zero =>
    intro page acc req h1 h2
    omega
  | succ fuel ih =>
    intro page acc req h1 h2
    have hst : ¬ (is2xx (server page).status = false) := by
      rw [(hs page h1).1]
      simp
    have htot := (hs page h1).2
    rw [sjLoop]
    rw [if_neg hst]
    by_cases hend : (T + 99) / 100 ≤ page + 1
    · have hstop : (page : ℤ) ≥ ⌈((server page).total : ℚ) / 100⌉ - 1 := by
        rw [htot, ceil_total_div_hundred]
        omega
      rw [if_pos hstop]
      have hPp : (T + 99) / 100 - page = 1 := by omega
      rw [hPp, List.range'_one]
      simp
    · have hstop : ¬ ((page : ℤ) ≥ ⌈((server page).total : ℚ) / 100⌉ - 1) := by
        rw [htot, ceil_total_div_hundred]
        omega
      rw [if_neg hstop]
      rw [ih (page + 1) (acc ++ (server page).objects) (req ++ [page])
        (by omega) (by omega)]
      have hPp : (T + 99) / 100 - page = ((T + 99) / 100 - (page + 1)) + 1 := by omega
      rw [hPp, List.range'_succ]
      simp

/-- Claim C2 (amended): for every fetch in which each fetched page response
is successful and declares the same total page count P with P ≥ 1 (for
Platform B, total count T ≥ 1 and P = ceil(T / 100)), the fetch requests
exactly the pages 0, 1, ..., P - 1 in order — so it halts exactly when the
requested page index equals P - 1 and never requests a further page — and
returns the concatenation of all items across the fetched pages.  (The
amendment adds the condition P ≥ 1: with a declared count of 0 the fetcher
still requests page 0 once and halts there, as the counterexample shows.) -/
theorem paginated_fetch_halts_at_declared_last_page
    (hhServer : ℕ → HHResponse) (sjServer : ℕ → SJResponse)
    (P T fuelH fuelS : ℕ) (hP : 1 ≤ P) (hT : 1 ≤ T)
    (hH : ∀ p, p < P → is2xx (hhServer p).status = true ∧ (hhServer p).pages = P)
    (hfH : P ≤ fuelH)
    (hS : ∀ p, p < (T + 99) / 100 →
      is2xx (sjServer p).status = true ∧ (sjServer p).total = T)
    (hfS : (T + 99) / 100 ≤ fuelS) :
    get_vacancies_from_hh hhServer fuelH =
      Option.some (Except.ok
        ((List.range P).flatMap (fun p => (hhServer p).items), List.range P)) ∧
    get_sj_vacancies sjServer fuelS =
      Option.some (Except.ok
        ((List.range ((T + 99) / 100)).flatMap (fun p => (sjServer p).objects),
         List.range ((T + 99) / 100))) := by
  constructor
  · rw [get_vacancies_from_hh,
      hhLoop_run hhServer P hH fuelH 0 [] [] (by omega) (by omega)]
    simp [List.range_eq_range']
  · have hL : 1 ≤ (T + 99) / 100 := by omega
    rw [get_sj_vacancies,
      sjLoop_run sjServer T hS fuelS 0 [] [] (by omega) (by omega)]
    simp [List.range_eq_range']

/-- A two-page HH server for the pagination witness. -/
def hhDemoServer : ℕ → HHResponse :=
  fun _ => ⟨200, [⟨Option.none⟩], 2⟩

/-- An SJ server declaring 150 total records (two pages of size 100) for
the pagination witness. -/
def sjDemoServer : ℕ → SJResponse :=
  fun _ => ⟨200, [⟨"rub", PyVal.num 100, PyVal.num 0⟩], 150⟩

/-- Witness for claim C2: with a constant declared page count of 2 (HH)
and a declared total of 150 records (SJ, two pages), both fetches request
exactly pages [0, 1] and return the two pages of items concatenated. -/
theorem paginated_fetch_halts_witness :
    get_vacancies_from_hh hhDemoServer 2 =
      Option.some (Except.ok
        ([⟨Option.none⟩, ⟨Option.none⟩], [0, 1])) ∧
    get_sj_vacancies sjDemoServer 2 =
      Option.some (Except.ok
        ([⟨"rub", PyVal.num 100, PyVal.num 0⟩,
          ⟨"rub", PyVal.num 100, PyVal.num 0⟩], [0, 1])) := by
  have h := paginated_fetch_halts_at_declared_last_page hhDemoServer sjDemoServer
    2 150 2 2 (by norm_num) (by norm_num)
    (fun p _ => ⟨rfl, rfl⟩) (by norm_num)
    (fun p _ => ⟨rfl, rfl⟩) (by norm_num)
  refine ⟨?_, ?_⟩
  · rw [h.1]
    rfl
  · rw [h.2]
    rfl

/-- An HH server each of whose responses declares a total page count of 0. -/
def hhZeroPagesServer : ℕ → HHResponse :=
  fun _ => ⟨200, [], 0⟩

/-- Counterexample to claim C2 as frozen: against a server whose every
response declares a total page count of 0, the HH fetch still requests
page 0 — its requested-page log is [0] — and halts there, although the
requested page index 0 does not equal the declared total page count minus
one, which is -1.  The halting condition of the source is >=, not =. -/
theorem paginated_fetch_zero_pages_counterexample :
    get_vacancies_from_hh hhZeroPagesServer 1 =
      Option.some (Except.ok ([], [0])) ∧
    ¬ ((0 : ℤ) = ((hhZeroPagesServer 0).pages : ℤ) - 1) := by
  refine ⟨rfl, by decide⟩

/-- If the SJ half of the language loop produced statistics, every
language in the list had a successful fetch. -/
lemma fetchAllSJ_ok_mem (server : String → ℕ → SJResponse) (fuel : ℕ) :
    ∀ (ls : List String) (res : List (String × LanguageStatistics)),
      fetchAllSJ server fuel ls = Option.some (Except.ok res) →
      ∀ l ∈ ls, ∃ r, get_sj_vacancies (server l) fuel = Option.some (Except.ok r) := by
  intro ls
  induction ls with
  | nil =>
    intro res h l hl
    simp at hl
  | cons a ls ih =>
    intro res h l hl
    rw [fetchAllSJ] at h
    split at h
    · exact absurd h (by simp)
    · exact absurd h (by simp)
    · next vs reqs heq =>
      split at h
      · exact absurd h (by simp)
      · next st heq2 =>
        split at h
        · exact absurd h (by simp)
        · exact absurd h (by simp)
        · next rest heq3 =>
          rcases List.mem_cons.mp hl with rfl | hl2
          · exact ⟨(vs, reqs), heq⟩
          · exact ih rest heq3 l hl2

/-- If the HH half of the language loop produced statistics, every
language in the list had a successful fetch. -/
lemma fetchAllHH_ok_mem (server : String → ℕ → HHResponse) (fuel : ℕ) :
    ∀ (ls : List String) (res : List (String × LanguageStatistics)),
      fetchAllHH server fuel ls = Option.some (Except.ok res) →
      ∀ l ∈ ls, ∃ r, get_vacancies_from_hh (server l) fuel = Option.some (Except.ok r) := by
  intro ls
  induction ls with
  | nil =>
    intro res h l hl
    simp at hl
  | cons a ls ih =>
    intro res h l hl
    rw [fetchAllHH] at h
    split at h
    · exact absurd h (by simp)
    · exact absurd h (by simp)
    · next vs reqs heq =>
      split at h
      · exact absurd h (by simp)
      · next st heq2 =>
        split at h
        · exact absurd h (by simp)
        · exact absurd h (by simp)
        · next rest heq3 =>
          rcases List.mem_cons.mp hl with rfl | hl2
          · exact ⟨(vs, reqs), heq⟩
          · exact ih rest heq3 l hl2

/-- Claim C10: a non-2xx response raises an error that nothing catches.
Part 1 and 2: a page-fetch iteration that receives a non-2xx response
returns only the error — in particular no partial vacancy list.  Part 3:
the authorization call fails the same way on a non-2xx response.  Part 4:
an authorization error propagates out of the whole run verbatim.  Part 5:
conversely, a run can only complete when the authorization and every
per-language fetch of both platforms returned successfully, so any raised
error terminates the run. -/
theorem http_error_propagates_uncaught :
    (∀ (server : ℕ → HHResponse) (fuel page : ℕ)
        (acc : List HHVacancy) (req : List ℕ),
        is2xx (server page).status = false →
        hhLoop server (fuel + 1) page acc req =
          Option.some (Except.error (PyErr.httpError (server page).status))) ∧
    (∀ (server : ℕ → SJResponse) (fuel page : ℕ)
        (acc : List SJVacancy) (req : List ℕ),
        is2xx (server page).status = false →
        sjLoop server (fuel + 1) page acc req =
          Option.some (Except.error (PyErr.httpError (server page).status))) ∧
    (∀ resp : SJAuthResponse, is2xx resp.status = false →
        sj_authorization resp = Except.error (PyErr.httpError resp.status)) ∧
    (∀ (authResp : SJAuthResponse) (sjServer : String → ℕ → SJResponse)
        (hhServer : String → ℕ → HHResponse) (fuel : ℕ) (e : PyErr),
        sj_authorization authResp = Except.error e →
        mainRun authResp sjServer hhServer fuel = Option.some (Except.error e)) ∧
    (∀ (authResp : SJAuthResponse) (sjServer : String → ℕ → SJResponse)
        (hhServer : String → ℕ → HHResponse) (fuel : ℕ)
        (out : List (String × LanguageStatistics) × List (String × LanguageStatistics)),
        mainRun authResp sjServer hhServer fuel = Option.some (Except.ok out) →
        is2xx authResp.status = true ∧
        ∀ l ∈ programming_languages,
          (∃ r, get_sj_vacancies (sjServer l) fuel = Option.some (Except.ok r)) ∧
          (∃ r, get_vacancies_from_hh (hhServer l) fuel = Option.some (Except.ok r))) := by
  refine ⟨?_, ?_, ?_, ?_, ?_⟩
  · intro server fuel page acc req h
    rw [hhLoop, if_pos h]
  · intro server fuel page acc req h
    rw [sjLoop, if_pos h]
  · intro resp h
    rw [sj_authorization, if_neg (by rw [h]; simp)]
  · intro authResp sjServer hhServer fuel e h
    rw [mainRun, h]
  · intro authResp sjServer hhServer fuel out h
    rw [mainRun] at h
    split at h
    · exact absurd h (by simp)
    · next token ha =>
      have hax : is2xx authResp.status = true := by
        rcases hb : is2xx authResp.status with _ | _
        · rw [sj_authorization, if_neg (by rw [hb]; simp)] at ha
          exact absurd ha (by simp)
        · rfl
      split at h
      · exact absurd h (by simp)
      · exact absurd h (by simp)
      · next sjStats hsj =>
        split at h
        · exact absurd h (by simp)
        · exact absurd h (by simp)
        · next hhStats hhh =>
          refine ⟨hax, fun l hl => ⟨?_, ?_⟩⟩
          · exact fetchAllSJ_ok_mem sjServer fuel programming_languages
              sjStats hsj l hl
          · exact fetchAllHH_ok_mem hhServer fuel programming_languages
              hhStats hhh l hl

/-- An HH server that always answers 404. -/
def badHHServer : ℕ → HHResponse :=
  fun _ => ⟨404, [], 1⟩

/-- An authorization response with status 500. -/
def badAuthResponse : SJAuthResponse :=
  ⟨500, ""⟩

/-- Witness for claim C10: a 404 page response makes the HH loop return
the HTTP error and no vacancy list, and a 500 authorization response makes
the authorization call fail with the HTTP error. -/
theorem http_error_propagates_uncaught_witness :
    hhLoop badHHServer 1 0 [] [] =
      Option.some (Except.error (PyErr.httpError 404)) ∧
    sj_authorization badAuthResponse = Except.error (PyErr.httpError 500) :=
  ⟨http_error_propagates_uncaught.1 badHHServer 0 0 [] [] (by decide),
   http_error_propagates_uncaught.2.2.1 badAuthResponse (by decide)⟩
